import Mathlib

/-!
Verification of the Gobblet Gobblers room server (three merged server
variants: `server.js`, `part_000`, `part_001`) against its natural-language
specification.  The JavaScript state and handlers are shallowly embedded:
per-cell stacks are lists whose *last* element is the JS `at(-1)` top
(pieces are pushed/popped at the end, as in the source), room state is an
explicit record, socket-side effects are reified as an `Event` list, and
connection liveness (`io.sockets.sockets.get`) is a `Nat → Bool` parameter.
Strings that the code only ever compares for identity (decision actions,
acknowledgment error messages) are embedded as inductive types.
-/

set_option maxRecDepth 4096

/-- Player slot identity, JS strings "A" / "B". -/
inductive Slot
| A
| B
deriving DecidableEq, Repr, Fintype

/-- Piece size, JS strings "small" / "medium" / "large". -/
inductive Size
| small
| medium
| large
deriving DecidableEq, Repr

/-- `const SIZE_VAL = { small:1, medium:2, large:3 }` (identical in all
three variants). -/
def SIZE_VAL : Size → Nat
| Size.small => 1
| Size.medium => 2
| Size.large => 3

/-- A board piece `{owner, size}`.  `part_000`/`part_001` additionally store
a presentational `color` string that no rule or handler ever reads; it is
dropped from the embedding. -/
structure Piece where
  owner : Slot
  size : Size
deriving DecidableEq, Repr

/-- A cell is the JS array used as a stack: `push`/`pop` act on the end and
`at(-1)` is the top, so the top is the *last* list element. -/
abbrev Cell := List Piece

/-- The 3×3 board `board[r][c]`. -/
abbrev Board := Fin 3 → Fin 3 → Cell

/-- `board = [[[],[],[]],[[],[],[]],[[],[],[]]]`. -/
def emptyBoard : Board := fun _ _ => []

/-- Functional update of one cell, `board[r][c] = v`. -/
def setCell (b : Board) (r c : Fin 3) (v : Cell) : Board :=
  fun i j => if i = r ∧ j = c then v else b i j

/-- A player's hand `{small, medium, large}` piece counts. -/
structure Pieces where
  small : Nat
  medium : Nat
  large : Nat
deriving DecidableEq, Repr

/-- Dynamic field access `pieces[size]`. -/
def Pieces.get (p : Pieces) : Size → Nat
| Size.small => p.small
| Size.medium => p.medium
| Size.large => p.large

/-- `pieces[size]--` (only invoked on the positive-count path). -/
def Pieces.dec (p : Pieces) : Size → Pieces
| Size.small => { p with small := p.small - 1 }
| Size.medium => { p with medium := p.medium - 1 }
| Size.large => { p with large := p.large - 1 }

/-- The full starting hand `{small:2, medium:2, large:2}`. -/
def fullHand : Pieces := ⟨2, 2, 2⟩

/-- A player record `{id, name, pieces}`; socket ids and display names are
abstracted to naturals (the code only stores and compares them). -/
structure Player where
  id : Nat
  name : Nat
  pieces : Pieces
deriving DecidableEq, Repr

/-- The `players: {A: …, B: …}` object. -/
structure PlayersRec where
  A : Option Player
  B : Option Player
deriving DecidableEq, Repr

/-- Dynamic lookup `players[slot]`. -/
def PlayersRec.get (ps : PlayersRec) : Slot → Option Player
| Slot.A => ps.A
| Slot.B => ps.B

/-- Dynamic store `players[slot] = v`. -/
def PlayersRec.set (ps : PlayersRec) : Slot → Option Player → PlayersRec
| Slot.A, v => { ps with A := v }
| Slot.B, v => { ps with B := v }

/-- A connection's `socket.data.playerSlot`: "A" / "B" / "spectator". -/
inductive PSlot
| player (s : Slot)
| spectator
deriving DecidableEq, Repr

/-- Post-game decision strings.  `server.js` compares only against
"continue"; `part_000` validates {"continue","quit"}; `part_001` branches on
{"leave","spectate","rematch"}.  One inductive covers the union. -/
inductive Decision
| cont
| quitD
| leave
| spectate
| rematch
deriving DecidableEq, Repr

/-- The `postDecisions` / `pendingDecisions` record `{A: …, B: …}`. -/
structure DecRec where
  A : Option Decision
  B : Option Decision
deriving DecidableEq, Repr

def DecRec.get (d : DecRec) : Slot → Option Decision
| Slot.A => d.A
| Slot.B => d.B

def DecRec.set (d : DecRec) : Slot → Option Decision → DecRec
| Slot.A, v => { d with A := v }
| Slot.B, v => { d with B := v }

/-- Acknowledgment error reasons (the distinct strings the handlers ack). -/
inductive AckErr
| spectator
| notStarted
| gameOverE
| notYourTurn
| noPiece
| illegal
| emptySrc
| notYours
| invalid
deriving DecidableEq, Repr

/-- A handler acknowledgment `{ok:true}` or `{error: reason}`. -/
inductive Ack
| ok
| err (e : AckErr)
deriving DecidableEq, Repr

/-- Reified socket emissions (payload data that no claim inspects is
elided). -/
inductive Event
| startGame
| updateState
| gameOverEv (w : Slot)
| assign (sid : Nat) (slot : PSlot)
| opponentDecided (slot : Slot)
| redirectHome (sid : Nat)
| clearBinding (sid : Nat)
| chatMessage
deriving DecidableEq, Repr

/-- The `place_piece` payload: tagged union over the two move kinds. -/
inductive Payload
| placeFromHand (size : Size) (toR toC : Fin 3)
| moveOnBoard (fromR fromC toR toC : Fin 3)
deriving DecidableEq, Repr

/-- The room record shared by `server.js` and `part_000` (identical fields;
`part_000`'s `chatLog` carries no state-machine behaviour and is elided). -/
structure Room where
  board : Board
  players : PlayersRec
  currentTurn : Option Slot
  winner : Option Slot
  started : Bool
  watchQueue : List Nat
  postDecisions : DecRec

/-- The eight win lines, rows then columns then diagonals, exactly the `L`
/ `lines` literal shared by all three variants. -/
def LINES : List (List (Fin 3 × Fin 3)) :=
  [ [(0,0),(0,1),(0,2)], [(1,0),(1,1),(1,2)], [(2,0),(2,1),(2,2)],
    [(0,0),(1,0),(2,0)], [(0,1),(1,1),(2,1)], [(0,2),(1,2),(2,2)],
    [(0,0),(1,1),(2,2)], [(0,2),(1,1),(2,0)] ]

/-- The shared body of the per-line check
`if (o.every(x => x && x === o[0])) return o[0]` over the mapped list of
top owners: returns the line's winner, else `none`. -/
def winnerOfTops (o : List (Option Slot)) : Option Slot :=
  if o.all fun x => x.isSome && x == o.headD none then o.headD none else none

namespace ServerJs

/-- server.js `canPlaceAt`: `!top || SIZE_VAL[size] > SIZE_VAL[top.size]`
with `top = board[r][c].at(-1)`. -/
def canPlaceAt (board : Board) (r c : Fin 3) (size : Size) : Bool :=
  match (board r c).getLast? with
  | none => true
  | some top => decide (SIZE_VAL size > SIZE_VAL top.size)

/-- server.js line owner extraction `board[r][c].at(-1)?.owner`. -/
def topOwnerAt (board : Board) (rc : Fin 3 × Fin 3) : Option Slot :=
  ((board rc.1 rc.2).getLast?).map Piece.owner

/-- server.js `checkWinner`: scan `LINES` in order, returning the first
line whose three top owners are all present and equal. -/
def checkWinner (board : Board) : Option Slot :=
  LINES.findSome? fun line => winnerOfTops (line.map (topOwnerAt board))

/-- server.js `s === "A" ? "B" : "A"`. -/
def flipTurn (s : Slot) : Slot := if s = Slot.A then Slot.B else Slot.A

/-- server.js `promoteFromQueue` while-loop over the queue: shift entries
off the front, discarding ids whose socket is gone, until a live one is
assigned to `slot` with a full hand, or the queue is exhausted. -/
def promoteLoop (conn : Nat → Bool) (names : Nat → Nat) (slot : Slot) :
    List Nat → PlayersRec → List Nat × PlayersRec × Bool × List Event
| [], ps => ([], ps, false, [])
| id :: rest, ps =>
  if conn id then
    (rest, ps.set slot (some ⟨id, names id, fullHand⟩), true,
     [Event.assign id (PSlot.player slot)])
  else promoteLoop conn names slot rest ps

/-- server.js `promoteFromQueue` applied to the room state. -/
def promoteFromQueue (conn : Nat → Bool) (names : Nat → Nat) (r : Room)
    (slot : Slot) : Room × Bool × List Event :=
  let (q, ps, ok, ev) := promoteLoop conn names slot r.watchQueue r.players
  ({ r with watchQueue := q, players := ps }, ok, ev)

/-- server.js `resetBoard`: clears the board, refills present players'
hands, sets `currentTurn="A"`, clears the winner, and recomputes
`started = !!(players.A && players.B)`. -/
def resetBoard (r : Room) : Room :=
  let ps := PlayersRec.mk
    ((r.players.A).map fun p => { p with pieces := fullHand })
    ((r.players.B).map fun p => { p with pieces := fullHand })
  { r with board := emptyBoard, players := ps,
           currentTurn := some Slot.A, winner := none,
           started := (ps.A).isSome && (ps.B).isSome }

/-- server.js `forceEndGame`: push the leaver onto the back of the watch
queue and vacate its slot; relocate the other occupant (if any) into the
leaver's slot with a fresh full hand; promote into `otherSlot` only;
reset the board; always emit `start_game`.  The handler receives the
initiator's `playerSlot`; the claim concerns players, so it is `Slot`. -/
def forceEndGame (conn : Nat → Bool) (names : Nat → Nat) (r : Room)
    (leaverSlot : Slot) : Room × List Event :=
  let otherSlot := if leaverSlot = Slot.A then Slot.B else Slot.A
  let leaver := r.players.get leaverSlot
  let other := r.players.get otherSlot
  let r1 :=
    match leaver with
    | some lv => { r with watchQueue := r.watchQueue ++ [lv.id],
                          players := r.players.set leaverSlot none }
    | none => r
  let r2 :=
    match other with
    | some ot =>
      let ps := (r1.players.set leaverSlot (some { ot with pieces := fullHand })).set otherSlot none
      { r1 with players := ps }
    | none => r1
  let pr := promoteFromQueue conn names r2 otherSlot
  (resetBoard pr.1, pr.2.2 ++ [Event.startGame])

/-- server.js `evaluatePostGame`'s inner `handle(slot)`: a present player
is kept as a survivor on "continue" and pushed to the back of the watch
queue on any other decision; the slot is always cleared. -/
def handleSlot (r : Room) (survivors : List Player) (s : Slot) :
    Room × List Player :=
  match r.players.get s with
  | some p =>
    if r.postDecisions.get s == some Decision.cont then
      ({ r with players := r.players.set s none }, survivors ++ [p])
    else
      ({ r with players := r.players.set s none,
                watchQueue := r.watchQueue ++ [p.id] }, survivors)
  | none => ({ r with players := r.players.set s none }, survivors)

/-- server.js `evaluatePostGame`'s refill loop body for one slot: shift a
survivor in, else try queue promotion. -/
def assignSlot (conn : Nat → Bool) (names : Nat → Nat) (r : Room)
    (survivors : List Player) (s : Slot) :
    Room × List Player × List Event :=
  match survivors with
  | p :: rest => ({ r with players := r.players.set s (some p) }, rest, [])
  | [] =>
    let (r', _, ev) := promoteFromQueue conn names r s
    (r', [], ev)

/-- server.js `evaluatePostGame`: no-op unless both stored decisions are
non-null; otherwise dispatch both slots via `handle`, refill A then B from
survivors/queue, null the decisions, reset the board, emit `start_game`. -/
def evaluatePostGame (conn : Nat → Bool) (names : Nat → Nat) (r : Room) :
    Room × List Event :=
  if (r.postDecisions.A).isNone ∨ (r.postDecisions.B).isNone then (r, [])
  else
    let (r1, sv1) := handleSlot r [] Slot.A
    let (r2, sv2) := handleSlot r1 sv1 Slot.B
    let (r3, sv3, evA) := assignSlot conn names r2 sv2 Slot.A
    let (r4, _, evB) := assignSlot conn names r3 sv3 Slot.B
    let r5 := { r4 with postDecisions := ⟨none, none⟩ }
    (resetBoard r5, evA ++ evB ++ [Event.startGame])

/-- server.js `join` (room already resolved/created by the registry): fill
slot A, else B, else append to the watch queue; then, whenever both slots
are occupied, unconditionally set `started`, reset `currentTurn` to A and
broadcast `start_game`; otherwise broadcast `update_state`. -/
def join (r : Room) (sid nm : Nat) : Room × PSlot × List Event :=
  let (slot, r1) :=
    if r.players.A = none then
      (PSlot.player Slot.A,
       { r with players := r.players.set Slot.A (some ⟨sid, nm, fullHand⟩) })
    else if r.players.B = none then
      (PSlot.player Slot.B,
       { r with players := r.players.set Slot.B (some ⟨sid, nm, fullHand⟩) })
    else
      (PSlot.spectator, { r with watchQueue := r.watchQueue ++ [sid] })
  if (r1.players.A).isSome ∧ (r1.players.B).isSome then
    ({ r1 with started := true, currentTurn := some Slot.A }, slot,
     [Event.startGame])
  else (r1, slot, [Event.updateState])

/-- Common move epilogue: evaluate `checkWinner`; on a winner set it, end
the match, null the post-game decisions and emit `game_over`; else flip
the turn and emit `update_state`; ack `{ok:true}`. -/
def afterMove (r : Room) (s : Slot) : Room × Option Ack × List Event :=
  match checkWinner r.board with
  | some w =>
    ({ r with winner := some w, started := false,
              postDecisions := ⟨none, none⟩ },
     some Ack.ok, [Event.gameOverEv w])
  | none =>
    ({ r with currentTurn := some (flipTurn s) },
     some Ack.ok, [Event.updateState])

/-- server.js `place_piece` body after the guard.  `place_from_hand`
validates the hand count and `canPlaceAt` before mutating.  The `else`
branch (`move_on_board`) first executes
`const top = board[from.r][from.c].pop()` — popping the source stack
*before* `canPlaceAt` is consulted — so an illegal destination leaves the
catch block with the source already popped and the piece discarded.
A `pop()` on an empty stack returns `undefined` and leaves the array
unchanged; the subsequent `top.size` access throws, reaching the catch
with no mutation. -/
def placePieceBody (r : Room) (s : Slot) (p : Payload) :
    Room × Option Ack × List Event :=
  match p with
  | Payload.placeFromHand size toR toC =>
    match r.players.get s with
    | none => (r, some (Ack.err AckErr.invalid), [])
    | some pl =>
      if pl.pieces.get size ≤ 0 then (r, some (Ack.err AckErr.invalid), [])
      else if ¬ canPlaceAt r.board toR toC size then
        (r, some (Ack.err AckErr.invalid), [])
      else
        let b' := setCell r.board toR toC (r.board toR toC ++ [⟨s, size⟩])
        let ps' := r.players.set s (some { pl with pieces := pl.pieces.dec size })
        afterMove { r with board := b', players := ps' } s
  | Payload.moveOnBoard fromR fromC toR toC =>
    match (r.board fromR fromC).getLast? with
    | none => (r, some (Ack.err AckErr.invalid), [])
    | some top =>
      let b1 := setCell r.board fromR fromC ((r.board fromR fromC).dropLast)
      let r1 := { r with board := b1 }
      if ¬ canPlaceAt r1.board toR toC top.size then
        (r1, some (Ack.err AckErr.invalid), [])
      else
        let b2 := setCell r1.board toR toC (r1.board toR toC ++ [top])
        afterMove { r1 with board := b2 } s

/-- server.js `place_piece` handler: the guard
`if(!r||!r.started||r.winner||r.currentTurn!==s) return;` exits with no
ack and no mutation (for a spectator, `currentTurn !== "spectator"` always
holds because the turn is only ever "A"/"B"/null). -/
def placePiece (r : Room) (ps : PSlot) (p : Payload) :
    Room × Option Ack × List Event :=
  match ps with
  | PSlot.spectator => (r, none, [])
  | PSlot.player s =>
    if ¬ r.started ∨ (r.winner).isSome ∨ r.currentTurn ≠ some s then
      (r, none, [])
    else placePieceBody r s p

end ServerJs

namespace Part000

/-- part_000 `canPlaceAt`: explicit `if (!topPiece) … if (pieceVal > …) …
return false` chain. -/
def canPlaceAt (board : Board) (toR toC : Fin 3) (pieceSizeName : Size) : Bool :=
  let targetStack := board toR toC
  match targetStack.getLast? with
  | none => true
  | some topPiece =>
    if SIZE_VAL pieceSizeName > SIZE_VAL topPiece.size then true else false

/-- part_000 line owner extraction
`stack.length ? stack.at(-1).owner : null`. -/
def topOwnerAt (board : Board) (rc : Fin 3 × Fin 3) : Option Slot :=
  let stack := board rc.1 rc.2
  if stack.length ≠ 0 then (stack.getLast?).map Piece.owner else none

/-- part_000 `checkWinner` (same scan as server.js over the same lines). -/
def checkWinner (board : Board) : Option Slot :=
  LINES.findSome? fun line => winnerOfTops (line.map (topOwnerAt board))

/-- part_000 `removeFromWatchQueue`: splice out the first occurrence. -/
def removeFromWatchQueue (q : List Nat) (sid : Nat) : List Nat := q.erase sid

/-- part_000 `join` (room already resolved/created): fill A, else B, else
de-duplicate and append to the watch queue.  When both slots are occupied
the turn/started mutation is guarded by `!started && !winner`, but
`postDecisions` is always reset and `start_game` is always broadcast;
otherwise `update_state` is broadcast. -/
def join (r : Room) (sid nm : Nat) : Room × PSlot × List Event :=
  let (assigned, r1) :=
    if r.players.A = none then
      (PSlot.player Slot.A,
       { r with players := r.players.set Slot.A (some ⟨sid, nm, fullHand⟩) })
    else if r.players.B = none then
      (PSlot.player Slot.B,
       { r with players := r.players.set Slot.B (some ⟨sid, nm, fullHand⟩) })
    else
      (PSlot.spectator,
       { r with watchQueue := removeFromWatchQueue r.watchQueue sid ++ [sid] })
  if (r1.players.A).isSome ∧ (r1.players.B).isSome then
    let r2 :=
      if ¬ r1.started ∧ r1.winner = none then
        { r1 with currentTurn := some Slot.A, started := true }
      else r1
    ({ r2 with postDecisions := ⟨none, none⟩ }, assigned, [Event.startGame])
  else (r1, assigned, [Event.updateState])

/-- part_000 move epilogue (identical to server.js's). -/
def afterMove (r : Room) (s : Slot) : Room × Option Ack × List Event :=
  match checkWinner r.board with
  | some w =>
    ({ r with winner := some w, started := false,
              postDecisions := ⟨none, none⟩ },
     some Ack.ok, [Event.gameOverEv w])
  | none =>
    ({ r with currentTurn := some (if s = Slot.A then Slot.B else Slot.A) },
     some Ack.ok, [Event.updateState])

/-- part_000 `place_piece` try-block.  Unlike server.js, `move_on_board`
validates the source stack, ownership (`top.owner !== slot`) and
`canPlaceAt` — against the board *before* the pop — and only then pops and
pushes, so every rejection leaves the state untouched. -/
def placePieceBody (r : Room) (s : Slot) (p : Payload) :
    Room × Option Ack × List Event :=
  match p with
  | Payload.placeFromHand size toR toC =>
    match r.players.get s with
    | none => (r, some (Ack.err AckErr.invalid), [])
    | some player =>
      if player.pieces.get size ≤ 0 then (r, some (Ack.err AckErr.noPiece), [])
      else if ¬ canPlaceAt r.board toR toC size then
        (r, some (Ack.err AckErr.illegal), [])
      else
        let b' := setCell r.board toR toC (r.board toR toC ++ [⟨s, size⟩])
        let ps' := r.players.set s (some { player with pieces := player.pieces.dec size })
        afterMove { r with board := b', players := ps' } s
  | Payload.moveOnBoard fromR fromC toR toC =>
    let srcStack := r.board fromR fromC
    match srcStack.getLast? with
    | none => (r, some (Ack.err AckErr.emptySrc), [])
    | some top =>
      if top.owner ≠ s then (r, some (Ack.err AckErr.notYours), [])
      else if ¬ canPlaceAt r.board toR toC top.size then
        (r, some (Ack.err AckErr.illegal), [])
      else
        let b1 := setCell r.board fromR fromC srcStack.dropLast
        let b2 := setCell b1 toR toC (b1 toR toC ++ [top])
        afterMove { r with board := b2 } s

/-- part_000 `place_piece` handler with its four distinct precondition
rejections, each acked with its reason and leaving the state untouched. -/
def placePiece (r : Room) (ps : PSlot) (p : Payload) :
    Room × Option Ack × List Event :=
  match ps with
  | PSlot.spectator => (r, some (Ack.err AckErr.spectator), [])
  | PSlot.player s =>
    if ¬ r.started then (r, some (Ack.err AckErr.notStarted), [])
    else if (r.winner).isSome then (r, some (Ack.err AckErr.gameOverE), [])
    else if r.currentTurn ≠ some s then
      (r, some (Ack.err AckErr.notYourTurn), [])
    else placePieceBody r s p

end Part000

namespace Part001

/-- part_001 `canPlaceAt` (textually identical to part_000's). -/
def canPlaceAt (board : Board) (toR toC : Fin 3) (pieceSizeName : Size) : Bool :=
  let targetStack := board toR toC
  match targetStack.getLast? with
  | none => true
  | some topPiece =>
    if SIZE_VAL pieceSizeName > SIZE_VAL topPiece.size then true else false

/-- part_001 line owner extraction (textually identical to part_000's). -/
def topOwnerAt (board : Board) (rc : Fin 3 × Fin 3) : Option Slot :=
  let stack := board rc.1 rc.2
  if stack.length ≠ 0 then (stack.getLast?).map Piece.owner else none

/-- part_001 `checkWinner`. -/
def checkWinner (board : Board) : Option Slot :=
  LINES.findSome? fun line => winnerOfTops (line.map (topOwnerAt board))

/-- part_001 room state: the spectator queue stores `{id, name}` records
and the decisions live in `pendingDecisions` (`chatLog` and the unused
`decisionTimer` are elided). -/
structure Room1 where
  board : Board
  players : PlayersRec
  spectators : List (Nat × Nat)
  currentTurn : Option Slot
  winner : Option Slot
  started : Bool
  pendingDecisions : DecRec

/-- part_001 `resolveGameDecisions`, per-slot dispatch (the source inlines
two textually identical blocks for A and B; this is that block with the
slot as a parameter).  The effective choice defaults to 'leave' when the
decision is unset or the player record is absent.  'leave' vacates the
slot and tells the connection to go home, clearing its room binding if it
is still connected; 'spectate' vacates the slot and appends `{id, name}`
to the back of the spectator queue; 'rematch' (or any other value, by the
if/else-if fall-through) keeps the player in place. -/
def applyChoice (conn : Nat → Bool) (r : Room1) (s : Slot) :
    Room1 × List Event :=
  let p := r.players.get s
  let choice : Decision :=
    match p with
    | some _ => (r.pendingDecisions.get s).getD Decision.leave
    | none => Decision.leave
  if choice = Decision.leave then
    match p with
    | some pl =>
      let ev := [Event.redirectHome pl.id] ++
        (if conn pl.id then [Event.clearBinding pl.id] else [])
      ({ r with players := r.players.set s none }, ev)
    | none => ({ r with players := r.players.set s none }, [])
  else if choice = Decision.spectate then
    match p with
    | some pl =>
      ({ r with players := r.players.set s none,
                spectators := r.spectators ++ [(pl.id, pl.name)] },
       [Event.assign pl.id PSlot.spectator])
    | none => ({ r with players := r.players.set s none }, [])
  else (r, [])

/-- part_001 refill loop body for one slot: when the slot is empty and the
queue is non-empty, shift exactly one entry off the front; if its socket
is still connected it becomes the player, otherwise the entry is discarded
and the slot stays empty — there is no retry with the next entry. -/
def fillSlot (conn : Nat → Bool) (r : Room1) (s : Slot) :
    Room1 × List Event :=
  match r.players.get s, r.spectators with
  | none, nextSpec :: rest =>
    let r1 := { r with spectators := rest }
    if conn nextSpec.1 then
      ({ r1 with players := r1.players.set s (some ⟨nextSpec.1, nextSpec.2, fullHand⟩) },
       [Event.assign nextSpec.1 (PSlot.player s), Event.chatMessage])
    else (r1, [])
  | _, _ => (r, [])

/-- part_001 `resolveGameDecisions`: dispatch A then B by their effective
choices, run the `['A','B'].forEach` refill, then reset the board, clear
the winner and the pending decisions, refill remaining players' hands, and
either start (both slots occupied: turn = A, `start_game`) or wait
(`started = false`, turn = null, `update_state`).  The function itself
performs no sufficiency check. -/
def resolveGameDecisions (conn : Nat → Bool) (r : Room1) :
    Room1 × List Event :=
  let (rA, evA) := applyChoice conn r Slot.A
  let (rB, evB) := applyChoice conn rA Slot.B
  let (rFA, evFA) := fillSlot conn rB Slot.A
  let (rFB, evFB) := fillSlot conn rFA Slot.B
  let ps := PlayersRec.mk
    ((rFB.players.A).map fun p => { p with pieces := fullHand })
    ((rFB.players.B).map fun p => { p with pieces := fullHand })
  let r1 : Room1 :=
    { board := emptyBoard, players := ps, spectators := rFB.spectators,
      currentTurn := rFB.currentTurn, winner := none, started := rFB.started,
      pendingDecisions := ⟨none, none⟩ }
  if (ps.A).isSome ∧ (ps.B).isSome then
    ({ r1 with currentTurn := some Slot.A, started := true },
     evA ++ evB ++ evFA ++ evFB ++ [Event.startGame, Event.chatMessage])
  else
    ({ r1 with currentTurn := none, started := false },
     evA ++ evB ++ evFA ++ evFB ++ [Event.updateState, Event.chatMessage])

/-- part_001 `post_game_decision` handler: valid only once a winner is set
and only for a player slot; stores the decision, notifies the opponent,
then runs resolution only if every present player has decided (a vacant
slot does not block). -/
def postGameDecision (conn : Nat → Bool) (r : Room1) (ps : PSlot)
    (decision : Decision) : Room1 × List Event :=
  if r.winner = none then (r, [])
  else
    match ps with
    | PSlot.spectator => (r, [])
    | PSlot.player s =>
      let r1 := { r with pendingDecisions := r.pendingDecisions.set s (some decision) }
      let ev0 := [Event.opponentDecided s]
      if (r1.players.A).isSome ∧ (r1.pendingDecisions.A).isNone then (r1, ev0)
      else if (r1.players.B).isSome ∧ (r1.pendingDecisions.B).isNone then (r1, ev0)
      else
        let (r2, ev) := resolveGameDecisions conn r1
        (r2, ev0 ++ ev)

/-- part_001 `disconnect` handler, player branch: with a winner pending,
the disconnecting slot's decision is set to 'leave' and
`resolveGameDecisions` is invoked immediately — with no sufficiency check;
mid-game the slot is vacated and the room unstarted. -/
def disconnectPlayer (conn : Nat → Bool) (r : Room1) (s : Slot) :
    Room1 × List Event :=
  if (r.winner).isSome then
    resolveGameDecisions conn
      { r with pendingDecisions := r.pendingDecisions.set s (some Decision.leave) }
  else
    ({ r with players := r.players.set s none, started := false },
     [Event.updateState])

/-- part_001 `join` (room already resolved/created): fill A, else B, else
append `{id, name}` to the spectator queue; unicast the slot assignment;
then start only when both slots are occupied *and* the room is not already
started with no winner pending — every other case broadcasts
`update_state` and touches nothing else. -/
def join (r : Room1) (sid nm : Nat) : Room1 × PSlot × List Event :=
  let (assigned, r1) :=
    if r.players.A = none then
      (PSlot.player Slot.A,
       { r with players := r.players.set Slot.A (some ⟨sid, nm, fullHand⟩) })
    else if r.players.B = none then
      (PSlot.player Slot.B,
       { r with players := r.players.set Slot.B (some ⟨sid, nm, fullHand⟩) })
    else
      (PSlot.spectator, { r with spectators := r.spectators ++ [(sid, nm)] })
  let ev0 := [Event.assign sid assigned]
  if (r1.players.A).isSome ∧ (r1.players.B).isSome then
    if ¬ r1.started ∧ r1.winner = none then
      ({ r1 with currentTurn := some Slot.A, started := true }, assigned,
       ev0 ++ [Event.startGame])
    else (r1, assigned, ev0 ++ [Event.updateState])
  else (r1, assigned, ev0 ++ [Event.updateState])

end Part001

/-! ## Observations and spec-side predicates -/

/-- Total pieces still in a hand. -/
def handSum (p : Pieces) : Nat := p.small + p.medium + p.large

/-- Pieces owned by `s` in one cell, at any stack depth. -/
def cellCount (cell : Cell) (s : Slot) : Nat :=
  (cell.filter fun p => p.owner == s).length

/-- Pieces owned by `s` anywhere on the board, at any stack depth. -/
def boardCount (board : Board) (s : Slot) : Nat :=
  ((List.finRange 3).map fun r =>
    ((List.finRange 3).map fun c => cellCount (board r c) s).sum).sum

/-- The conserved quantity of the hand-conservation invariant:
hand total of slot `s` plus its pieces on the board. -/
def invSum (r : Room) (s : Slot) : Nat :=
  (match r.players.get s with
   | some p => handSum p.pieces
   | none => 0) + boardCount r.board s

/-- Spec wording of placement legality: the target cell is empty, or its
top piece is strictly smaller than the piece being placed. -/
def specCanPlace (board : Board) (r c : Fin 3) (size : Size) : Prop :=
  (board r c).getLast? = none ∨
    ∃ top, (board r c).getLast? = some top ∧
      SIZE_VAL top.size < SIZE_VAL size

/-- Spec wording of a winning line for `o`: every cell of the line is
non-empty and its top piece is owned by `o`. -/
def specLineWins (board : Board) (line : List (Fin 3 × Fin 3)) (o : Slot) : Prop :=
  ∀ rc ∈ line, ((board rc.1 rc.2).getLast?).map Piece.owner = some o

instance (board : Board) (line : List (Fin 3 × Fin 3)) (o : Slot) :
    Decidable (specLineWins board line o) := by
  unfold specLineWins
  infer_instance

/-! ## Concrete inputs used by the counterexample/bug evaluations -/

/-- Every socket connected. -/
def connAll : Nat → Bool := fun _ => true

/-- Socket display names: the id itself. -/
def nmId : Nat → Nat := fun n => n

def pA1 : Player := ⟨1, 11, ⟨1, 2, 2⟩⟩

def pB1 : Player := ⟨2, 22, ⟨2, 2, 1⟩⟩

def pA2 : Player := ⟨1, 11, fullHand⟩

def pB2 : Player := ⟨2, 22, fullHand⟩

/-- Mid-match board: A's small on top at (0,0), B's large on top at (1,1). -/
def bC1 : Board :=
  setCell (setCell emptyBoard 0 0 [⟨Slot.A, Size.small⟩]) 1 1
    [⟨Slot.B, Size.large⟩]

/-- Mid-match room, A to move, hands consistent with `bC1` (sum 6 each). -/
def stC1 : Room :=
  ⟨bC1, ⟨some pA1, some pB1⟩, some Slot.A, none, true, [], ⟨none, none⟩⟩

/-- A's request: move the (0,0) top onto (1,1) — illegal destination
(small may not cover large). -/
def mvC1 : Payload := Payload.moveOnBoard 0 0 1 1

/-- Post-game room for `evaluatePostGame`: A decided leave, B decided
continue, spectator 5 waiting. -/
def stC4 : Room :=
  ⟨emptyBoard, ⟨some pA2, some pB2⟩, none, some Slot.A, false, [5],
   ⟨some Decision.leave, some Decision.cont⟩⟩

/-- Liveness for the C3 scenario: only B's socket (id 2) is connected. -/
def connC3 : Nat → Bool := fun n => n == 2

/-- part_001 post-game room: winner set, both players still seated,
neither decision recorded. -/
def stC3 : Part001.Room1 :=
  ⟨emptyBoard, ⟨some pA2, some pB2⟩, [], none, some Slot.A, false,
   ⟨none, none⟩⟩

/-- Liveness for the C5 scenario: only spectator 8 is still connected. -/
def connC5 : Nat → Bool := fun n => n == 8

/-- part_001 room with an empty slot A and queue [stale 7, live 8]. -/
def stC5 : Part001.Room1 :=
  ⟨emptyBoard, ⟨none, some pB2⟩, [(7, 70), (8, 80)], none, none, false,
   ⟨none, none⟩⟩

/-- server.js room with the same queue situation as `stC5`. -/
def stQ5 : Room :=
  ⟨emptyBoard, ⟨none, some pB2⟩, none, none, false, [7, 8], ⟨none, none⟩⟩

/-- Running match (turn = B) with both slots occupied, for the join
counterexample. -/
def stC6 : Room :=
  ⟨bC1, ⟨some pA1, some pB1⟩, some Slot.B, none, true, [], ⟨none, none⟩⟩

/-- The same running match in part_001's state shape. -/
def stC6p1 : Part001.Room1 :=
  ⟨bC1, ⟨some pA1, some pB1⟩, [], some Slot.B, none, true, ⟨none, none⟩⟩

/-- Room with the mid-match board `bC1`, only player A seated and
spectator 7 queued, for the force-quit counterexample. -/
def stC9 : Room :=
  ⟨bC1, ⟨some pA2, none⟩, some Slot.A, none, false, [7],
   ⟨none, none⟩⟩

/-- Adversarial board with two simultaneous winning lines: row 0 all
topped by A, row 2 all topped by B. -/
def bAdv : Board := fun r _ =>
  if r = 0 then [⟨Slot.A, Size.small⟩]
  else if r = 2 then [⟨Slot.B, Size.small⟩]
  else []

/-- part_001 post-game room with decisions rematch (A) / spectate (B),
used to exercise the decision-dispatch characterisation. -/
def stW4 : Part001.Room1 :=
  ⟨emptyBoard, ⟨some pA2, some pB2⟩, [], none, some Slot.A, false,
   ⟨some Decision.rematch, some Decision.spectate⟩⟩

/-! ## Helper lemmas -/

theorem findSome?_cons_eq {α β : Type} (f : α → Option β) (x : α) (L : List α) :
    (x :: L).findSome? f =
      match f x with
      | some b => some b
      | none => L.findSome? f := rfl

theorem findSome?_split {α β : Type} (f : α → Option β) (L : List α) (b : β) :
    L.findSome? f = some b ↔
      ∃ pre a post, L = pre ++ a :: post ∧ f a = some b ∧
        ∀ a' ∈ pre, f a' = none := by
  induction L with
  | nil =>
    simp [List.findSome?]
  | cons x L ih =>
    rw [findSome?_cons_eq]
    cases hfx : f x with
    | some b' =>
      simp only []
      constructor
      · intro h
        refine ⟨[], x, L, rfl, ?_, by simp⟩
        rw [hfx, h]
      · rintro ⟨pre, a, post, hL, hfa, hpre⟩
        cases pre with
        | nil =>
          simp only [List.nil_append] at hL
          obtain ⟨rfl, rfl⟩ := List.cons.inj hL
          rw [hfx] at hfa
          exact hfa
        | cons p pre' =>
          obtain ⟨rfl, -⟩ := List.cons.inj hL
          have hx := hpre x (by simp)
          rw [hfx] at hx
          exact absurd hx (by simp)
    | none =>
      simp only []
      rw [ih]
      constructor
      · rintro ⟨pre, a, post, hL, hfa, hpre⟩
        refine ⟨x :: pre, a, post, by rw [hL]; rfl, hfa, ?_⟩
        intro a' ha'
        rcases List.mem_cons.mp ha' with rfl | hmem
        · exact hfx
        · exact hpre a' hmem
      · rintro ⟨pre, a, post, hL, hfa, hpre⟩
        cases pre with
        | nil =>
          simp only [List.nil_append] at hL
          obtain ⟨rfl, rfl⟩ := List.cons.inj hL
          rw [hfx] at hfa
          cases hfa
        | cons p pre' =>
          obtain ⟨rfl, hL'⟩ := List.cons.inj hL
          exact ⟨pre', a, post, hL', hfa, fun a' ha' => hpre a' (by simp [ha'])⟩

theorem findSome?_none_iff {α β : Type} (f : α → Option β) (L : List α) :
    L.findSome? f = none ↔ ∀ a ∈ L, f a = none := by
  induction L with
  | nil => simp [List.findSome?]
  | cons x L ih =>
    rw [findSome?_cons_eq]
    cases hfx : f x with
    | some b' => simp [hfx]
    | none => simp [hfx, ih]

theorem wTops3_some (x y z : Option Slot) (o : Slot) :
    winnerOfTops [x, y, z] = some o ↔ (x = some o ∧ y = some o ∧ z = some o) := by
  revert x y z o
  decide

theorem wTops3_none (x y z : Option Slot) :
    winnerOfTops [x, y, z] = none ↔
      ∀ o : Slot, ¬(x = some o ∧ y = some o ∧ z = some o) := by
  revert x y z
  decide

theorem lines_are_triples : ∀ l ∈ LINES, ∃ a b c, l = [a, b, c] := by decide

theorem lineOwner_some_iff (board : Board) (l : List (Fin 3 × Fin 3))
    (hl : ∃ a b c, l = [a, b, c]) (o : Slot) :
    winnerOfTops (l.map (ServerJs.topOwnerAt board)) = some o ↔
      specLineWins board l o := by
  obtain ⟨a, b, c, rfl⟩ := hl
  rw [List.map_cons, List.map_cons, List.map_cons, List.map_nil, wTops3_some]
  unfold specLineWins ServerJs.topOwnerAt
  simp [List.forall_mem_cons]

theorem lineOwner_none_iff (board : Board) (l : List (Fin 3 × Fin 3))
    (hl : ∃ a b c, l = [a, b, c]) :
    winnerOfTops (l.map (ServerJs.topOwnerAt board)) = none ↔
      ∀ s : Slot, ¬ specLineWins board l s := by
  obtain ⟨a, b, c, rfl⟩ := hl
  rw [List.map_cons, List.map_cons, List.map_cons, List.map_nil, wTops3_none]
  unfold specLineWins ServerJs.topOwnerAt
  simp [List.forall_mem_cons]


theorem playersRec_get_set (ps : PlayersRec) (s t : Slot) (v : Option Player) :
    (ps.set s v).get t = if t = s then v else ps.get t := by
  cases s <;> cases t <;> simp [PlayersRec.set, PlayersRec.get]

theorem promoteLoop_spec (conn : Nat → Bool) (names : Nat → Nat) (slot : Slot) :
    ∀ (q : List Nat) (ps : PlayersRec),
      (∀ s', s' ≠ slot →
        ((ServerJs.promoteLoop conn names slot q ps).2.1).get s' = ps.get s') ∧
      (∃ k, (ServerJs.promoteLoop conn names slot q ps).1 = q.drop k) ∧
      Event.updateState ∉ (ServerJs.promoteLoop conn names slot q ps).2.2.2 := by
  intro q
  induction q with
  | nil =>
    intro ps
    exact ⟨fun s' _ => rfl, ⟨0, rfl⟩, by simp [ServerJs.promoteLoop]⟩
  | cons id rest ih =>
    intro ps
    by_cases hc : conn id
    · refine ⟨?_, ⟨1, ?_⟩, ?_⟩
      · intro s' hs'
        simp [ServerJs.promoteLoop, hc, playersRec_get_set, hs']
      · simp [ServerJs.promoteLoop, hc]
      · simp [ServerJs.promoteLoop, hc]
    · obtain ⟨h1, ⟨k, hk⟩, h3⟩ := ih ps
      refine ⟨?_, ⟨k + 1, ?_⟩, ?_⟩
      · intro s' hs'
        simpa [ServerJs.promoteLoop, hc] using h1 s' hs'
      · simpa [ServerJs.promoteLoop, hc] using hk
      · simpa [ServerJs.promoteLoop, hc] using h3

theorem promoteFromQueue_spec (conn : Nat → Bool) (names : Nat → Nat)
    (r : Room) (slot : Slot) :
    (∀ s', s' ≠ slot →
      (ServerJs.promoteFromQueue conn names r slot).1.players.get s' =
        r.players.get s') ∧
    (∃ k, (ServerJs.promoteFromQueue conn names r slot).1.watchQueue =
      r.watchQueue.drop k) ∧
    Event.updateState ∉ (ServerJs.promoteFromQueue conn names r slot).2.2 := by
  obtain ⟨h1, ⟨k, hk⟩, h3⟩ := promoteLoop_spec conn names slot r.watchQueue r.players
  rcases hp : ServerJs.promoteLoop conn names slot r.watchQueue r.players with
    ⟨q, ps2, ok, ev⟩
  rw [hp] at h1 hk h3
  refine ⟨?_, ⟨k, ?_⟩, ?_⟩ <;> simp [ServerJs.promoteFromQueue, hp]
  · intro s' hs'
    exact h1 s' hs'
  · exact hk
  · exact h3

theorem resetBoard_players_get (r : Room) (s : Slot) :
    (ServerJs.resetBoard r).players.get s =
      (r.players.get s).map fun p => { p with pieces := fullHand } := by
  cases s <;> simp [ServerJs.resetBoard, PlayersRec.get]

theorem resetBoard_queue (r : Room) :
    (ServerJs.resetBoard r).watchQueue = r.watchQueue := rfl


/-- C7: for every board, cell and size, `canPlaceAt` returns true iff the
target cell's stack is empty or its top piece is strictly smaller than the
placed size, and returns false exactly when the top piece has equal or
larger size (proved for the server.js engine and part_000's engine). -/
theorem c7_canPlaceAt_iff_strictly_larger :
    ∀ (board : Board) (r c : Fin 3) (size : Size),
      (ServerJs.canPlaceAt board r c size = true ↔ specCanPlace board r c size) ∧
      (Part000.canPlaceAt board r c size = true ↔ specCanPlace board r c size) ∧
      (ServerJs.canPlaceAt board r c size = false ↔
        ∃ top, (board r c).getLast? = some top ∧
          SIZE_VAL size ≤ SIZE_VAL top.size) := by
  intro board r c size
  unfold ServerJs.canPlaceAt Part000.canPlaceAt specCanPlace
  cases h : (board r c).getLast? with
  | none => simp [h]
  | some top =>
    simp only [h, gt_iff_lt]
    by_cases h2 : SIZE_VAL top.size < SIZE_VAL size
    · exact ⟨by simp [h2], by simp [h2], by simp [Nat.not_le.mpr h2]⟩
    · exact ⟨by simp [h2], by simp [h2], by simp [Nat.le_of_not_lt h2]⟩

/-- C10: the three merged variants implement extensionally equal rules
engines: `canPlaceAt` agrees on every board, cell and size, and
`checkWinner` agrees on every board. -/
theorem c10_rules_engines_extensionally_equal :
    (∀ (board : Board) (r c : Fin 3) (size : Size),
       ServerJs.canPlaceAt board r c size = Part000.canPlaceAt board r c size ∧
       Part000.canPlaceAt board r c size = Part001.canPlaceAt board r c size) ∧
    (∀ board : Board,
       ServerJs.checkWinner board = Part000.checkWinner board ∧
       Part000.checkWinner board = Part001.checkWinner board) := by
  constructor
  · intro board r c size
    unfold ServerJs.canPlaceAt Part000.canPlaceAt Part001.canPlaceAt
    cases h : (board r c).getLast? with
    | none => simp [h]
    | some top =>
      simp only [h, gt_iff_lt]
      by_cases h2 : SIZE_VAL top.size < SIZE_VAL size <;> simp [h2]
  · intro board
    have h0 : ServerJs.topOwnerAt board = Part000.topOwnerAt board := by
      funext rc
      unfold ServerJs.topOwnerAt Part000.topOwnerAt
      cases hb : board rc.1 rc.2 <;> simp [hb]
    have h1 : Part000.topOwnerAt board = Part001.topOwnerAt board := rfl
    constructor
    · unfold ServerJs.checkWinner Part000.checkWinner
      rw [h0]
    · unfold Part000.checkWinner Part001.checkWinner
      rw [h1]

/-- C8: `checkWinner` scans the 8 lines in the fixed rows/columns/diagonals
order and returns the owner of the first line whose three cells are all
non-empty with top pieces of a single owner, `none` when no line wins; on
the adversarial two-winner board it deterministically returns the owner of
the earlier line (row 0's A, not row 2's B). -/
theorem c8_checkWinner_scan_order :
    (∀ (board : Board) (o : Slot),
       ServerJs.checkWinner board = some o ↔
         ∃ pre line post, LINES = pre ++ line :: post ∧
           specLineWins board line o ∧
           ∀ l ∈ pre, ∀ s : Slot, ¬ specLineWins board l s) ∧
    (∀ board : Board,
       ServerJs.checkWinner board = none ↔
         ∀ l ∈ LINES, ∀ s : Slot, ¬ specLineWins board l s) ∧
    specLineWins bAdv [(0,0),(0,1),(0,2)] Slot.A ∧
    specLineWins bAdv [(2,0),(2,1),(2,2)] Slot.B ∧
    ServerJs.checkWinner bAdv = some Slot.A := by
  refine ⟨?_, ?_, by decide, by decide, by decide⟩
  · intro board o
    unfold ServerJs.checkWinner
    rw [findSome?_split]
    constructor
    · rintro ⟨pre, a, post, hL, hfa, hpre⟩
      have hmem : a ∈ LINES := by
        rw [hL]
        exact List.mem_append_right _ (List.mem_cons_self a post)
      refine ⟨pre, a, post, hL,
        (lineOwner_some_iff board a (lines_are_triples a hmem) o).mp hfa, ?_⟩
      intro l hlpre s
      have hlm : l ∈ LINES := by
        rw [hL]
        exact List.mem_append_left _ hlpre
      exact (lineOwner_none_iff board l (lines_are_triples l hlm)).mp
        (hpre l hlpre) s
    · rintro ⟨pre, a, post, hL, hfa, hpre⟩
      have hmem : a ∈ LINES := by
        rw [hL]
        exact List.mem_append_right _ (List.mem_cons_self a post)
      refine ⟨pre, a, post, hL,
        (lineOwner_some_iff board a (lines_are_triples a hmem) o).mpr hfa, ?_⟩
      intro l hlpre
      have hlm : l ∈ LINES := by
        rw [hL]
        exact List.mem_append_left _ hlpre
      exact (lineOwner_none_iff board l (lines_are_triples l hlm)).mpr
        (hpre l hlpre)
  · intro board
    unfold ServerJs.checkWinner
    rw [findSome?_none_iff]
    constructor
    · intro h l hl
      exact (lineOwner_none_iff board l (lines_are_triples l hl)).mp (h l hl)
    · intro h l hl
      exact (lineOwner_none_iff board l (lines_are_triples l hl)).mpr (h l hl)

/-- Witness for C7's characterisation at concrete inputs: placing small on
a large-topped cell is refused, placing medium on a small-topped cell is
allowed. -/
theorem c7_canPlaceAt_witness :
    ServerJs.canPlaceAt bC1 1 1 Size.small = false ∧
    specCanPlace bC1 0 0 Size.medium := by
  constructor
  · exact (c7_canPlaceAt_iff_strictly_larger bC1 1 1 Size.small).2.2.mpr
      ⟨⟨Slot.B, Size.large⟩, by decide, by decide⟩
  · exact (c7_canPlaceAt_iff_strictly_larger bC1 0 0 Size.medium).1.mp
      (by decide)

/-- Witness for C8's characterisation at a concrete input: the empty board
has no winner because no line is fully owned. -/
theorem c8_checkWinner_witness :
    ServerJs.checkWinner emptyBoard = none :=
  (c8_checkWinner_scan_order.2.1 emptyBoard).mpr (by decide)

/-- C1: counter to the claim that every rejected `place_piece` leaves the
room state unchanged, server.js's `move_on_board` branch pops the source
stack before validating the destination: on the concrete mid-match state
`stC1`, A's move of the (0,0) small onto the large-topped (1,1) is acked
as an error with no broadcast, yet the source cell (0,0) is left empty —
the piece is discarded.  part_000's handler on the same request leaves the
state untouched. -/
theorem c1_rejected_move_discards_piece :
    (ServerJs.placePiece stC1 (PSlot.player Slot.A) mvC1).2.1 =
      some (Ack.err AckErr.invalid) ∧
    (ServerJs.placePiece stC1 (PSlot.player Slot.A) mvC1).2.2 = [] ∧
    stC1.board 0 0 = [⟨Slot.A, Size.small⟩] ∧
    (ServerJs.placePiece stC1 (PSlot.player Slot.A) mvC1).1.board 0 0 = [] ∧
    Part000.placePiece stC1 (PSlot.player Slot.A) mvC1 =
      (stC1, some (Ack.err AckErr.illegal), []) :=
  ⟨by decide, by decide, by decide, by decide, rfl⟩

/-- C2: hand conservation is broken by server.js's rejected
`move_on_board`: on `stC1` both slots satisfy hand + board = 6, and the
match is active before and after, but after the rejected move slot A's sum
drops to 5 (the popped piece is lost); part_000's handler preserves 6 on
the same request. -/
theorem c2_conservation_broken_by_rejected_move :
    invSum stC1 Slot.A = 6 ∧ invSum stC1 Slot.B = 6 ∧ stC1.started = true ∧
    (ServerJs.placePiece stC1 (PSlot.player Slot.A) mvC1).1.started = true ∧
    invSum (ServerJs.placePiece stC1 (PSlot.player Slot.A) mvC1).1 Slot.A = 5 ∧
    invSum (Part000.placePiece stC1 (PSlot.player Slot.A) mvC1).1 Slot.A = 6 := by
  decide

/-- C3: part_001's resolution is *not* a no-op when the sufficiency
condition fails.  In `stC3` the winner is set, slot B is occupied by a
connected player whose decision is still null, yet `resolveGameDecisions`
ejects B, and the disconnect handler (A's socket dropping) invokes it in
exactly this state, clearing both players and redirecting the undecided B
home. -/
theorem c3_resolution_runs_on_undecided_slot :
    stC3.players.B = some pB2 ∧ stC3.pendingDecisions.B = none ∧ connC3 2 = true ∧
    (Part001.resolveGameDecisions connC3 stC3).1.players.B = none ∧
    (Part001.disconnectPlayer connC3 stC3 Slot.A).1.players.B = none ∧
    Event.redirectHome 2 ∈ (Part001.disconnectPlayer connC3 stC3 Slot.A).2 ∧
    (Part001.disconnectPlayer connC3 stC3 Slot.A).1.pendingDecisions = ⟨none, none⟩ := by
  decide

/-- C4 counterexample: in server.js's `evaluatePostGame`, a `leave`
decision does not vacate the player from the room — A (id 1), who chose
leave, is pushed into the spectator queue; and B (id 2), who chose
continue, is not kept in slot B but packed into slot A, while the queued
spectator 5 is promoted into B. -/
theorem c4_counterexample_leave_is_queued :
    stC4.postDecisions.A = some Decision.leave ∧
    stC4.postDecisions.B = some Decision.cont ∧
    pA2.id = 1 ∧ pB2.id = 2 ∧
    (ServerJs.evaluatePostGame connAll nmId stC4).1.watchQueue = [1] ∧
    ((ServerJs.evaluatePostGame connAll nmId stC4).1.players.A).map Player.id = some 2 ∧
    ((ServerJs.evaluatePostGame connAll nmId stC4).1.players.B).map Player.id = some 5 := by
  decide

/-- C5: part_001's refill loop pops exactly one queue entry per empty
slot: with queue [stale 7, live 8] and slot A empty, the stale entry is
discarded and slot A stays empty — the still-present spectator 8 is not
promoted (it merely advances to the front).  server.js's
`promoteFromQueue` on the same scenario skips 7 and promotes 8. -/
theorem c5_stale_entry_blocks_promotion :
    connC5 7 = false ∧ connC5 8 = true ∧
    stC5.players.A = none ∧ stC5.spectators = [(7, 70), (8, 80)] ∧
    (Part001.fillSlot connC5 stC5 Slot.A).1.players.A = none ∧
    (Part001.fillSlot connC5 stC5 Slot.A).1.spectators = [(8, 80)] ∧
    ((ServerJs.promoteFromQueue connC5 nmId stQ5 Slot.A).1.players.A).map Player.id = some 8 ∧
    (ServerJs.promoteFromQueue connC5 nmId stQ5 Slot.A).1.watchQueue = [] := by
  decide

/-- C6 counterexample: in server.js, a spectator (id 9) joining the
running match `stC6` (turn = B) makes the join handler reset
`currentTurn` to A and broadcast `start_game` instead of `update_state`
with the state unchanged. -/
theorem c6_counterexample_spectator_join_resets_turn :
    stC6.started = true ∧ stC6.winner = none ∧ stC6.currentTurn = some Slot.B ∧
    (ServerJs.join stC6 9 90).2.1 = PSlot.spectator ∧
    (ServerJs.join stC6 9 90).1.currentTurn = some Slot.A ∧
    (ServerJs.join stC6 9 90).2.2 = [Event.startGame] := by
  decide

/-- C9 counterexample: `forceEndGame` on `stC9` (mid-match board, A
seated, B empty, spectator 7 queued) leaves slot A empty even though the
connected ex-player 1 sits in the queue, ends with `started = false`, and
still broadcasts `start_game` — never `update_state` — contradicting the
claimed start/update choice and the claimed filling of every empty slot
(the board is reset: cell (0,0) held a piece and ends empty). -/
theorem c9_counterexample_start_broadcast_without_both_slots :
    stC9.players.B = none ∧ stC9.watchQueue = [7] ∧ connAll 1 = true ∧ pA2.id = 1 ∧
    stC9.board 0 0 = [⟨Slot.A, Size.small⟩] ∧
    (ServerJs.forceEndGame connAll nmId stC9 Slot.A).1.board 0 0 = [] ∧
    (ServerJs.forceEndGame connAll nmId stC9 Slot.A).1.players.A = none ∧
    (ServerJs.forceEndGame connAll nmId stC9 Slot.A).1.started = false ∧
    (ServerJs.forceEndGame connAll nmId stC9 Slot.A).1.watchQueue = [1] ∧
    (ServerJs.forceEndGame connAll nmId stC9 Slot.A).2 =
      [Event.assign 7 (PSlot.player Slot.B), Event.startGame] := by
  decide

/-- C4 amended: when resolution runs, part_001's per-slot dispatch follows
the claim — rematch keeps the player in place, leave vacates without
queueing (with a go-home notice), spectate appends `{id, name}` to the
back of the spectator queue — and every player left seated by part_001's
resolution has a full hand; in server.js, a continue decision keeps the
player only as a survivor (survivors are packed into slot A first) and
*any* other decision, leave included, pushes the player onto the back of
the spectator queue. -/
theorem c4_amended_dispatch_by_decision :
    (∀ (conn : Nat → Bool) (r : Part001.Room1) (s : Slot) (pl : Player),
       r.players.get s = some pl →
       ((r.pendingDecisions.get s = some Decision.rematch →
          Part001.applyChoice conn r s = (r, [])) ∧
        (r.pendingDecisions.get s = some Decision.leave →
          (Part001.applyChoice conn r s).1.players = r.players.set s none ∧
          (Part001.applyChoice conn r s).1.spectators = r.spectators ∧
          Event.redirectHome pl.id ∈ (Part001.applyChoice conn r s).2) ∧
        (r.pendingDecisions.get s = some Decision.spectate →
          (Part001.applyChoice conn r s).1.players = r.players.set s none ∧
          (Part001.applyChoice conn r s).1.spectators =
            r.spectators ++ [(pl.id, pl.name)]))) ∧
    (∀ (conn : Nat → Bool) (r : Part001.Room1) (s : Slot) (p : Player),
       (Part001.resolveGameDecisions conn r).1.players.get s = some p →
       p.pieces = fullHand) ∧
    (∀ (r : Room) (sv : List Player) (s : Slot) (p : Player),
       r.players.get s = some p →
       ((r.postDecisions.get s = some Decision.cont →
          ServerJs.handleSlot r sv s =
            ({ r with players := r.players.set s none }, sv ++ [p])) ∧
        (∀ d : Decision, r.postDecisions.get s = some d → d ≠ Decision.cont →
          ServerJs.handleSlot r sv s =
            ({ r with players := r.players.set s none,
                      watchQueue := r.watchQueue ++ [p.id] }, sv)))) := by
  refine ⟨?_, ?_, ?_⟩
  · intro conn r s pl h
    refine ⟨?_, ?_, ?_⟩
    · intro hd
      simp [Part001.applyChoice, h, hd]
    · intro hd
      simp [Part001.applyChoice, h, hd]
    · intro hd
      simp [Part001.applyChoice, h, hd]
  · intro conn r s p h
    unfold Part001.resolveGameDecisions at h
    rcases hA : Part001.applyChoice conn r Slot.A with ⟨rA, evA⟩
    rw [hA] at h
    dsimp only at h
    rcases hB : Part001.applyChoice conn rA Slot.B with ⟨rB, evB⟩
    rw [hB] at h
    dsimp only at h
    rcases hFA : Part001.fillSlot conn rB Slot.A with ⟨rFA, evFA⟩
    rw [hFA] at h
    dsimp only at h
    rcases hFB : Part001.fillSlot conn rFA Slot.B with ⟨rFB, evFB⟩
    rw [hFB] at h
    dsimp only at h
    split at h <;> cases s <;>
      simp only [PlayersRec.get] at h <;>
      cases hp : rFB.players.A <;> cases hq : rFB.players.B <;>
      simp [hp, hq] at h <;> rw [← h]
  · intro r sv s p h
    constructor
    · intro hd
      simp [ServerJs.handleSlot, h, hd]
    · intro d hd hne
      simp [ServerJs.handleSlot, h, hd, hne]

/-- C6 amended: part_001's join implements the claim exactly — start
(turn := A, started, `start_game`) iff both slots are occupied after
assignment and the room is not started with no winner, else a pure
`update_state` with board/turn/started/winner/decisions untouched.
server.js instead starts (resetting the turn to A) whenever both slots are
occupied, and part_000 always broadcasts `start_game` and always resets
`postDecisions` when both slots are occupied, guarding only the
turn/started mutation. -/
theorem c6_amended_join_gating :
    (∀ (r : Part001.Room1) (sid nm : Nat),
       (((Part001.join r sid nm).1.players.A).isSome ∧
        ((Part001.join r sid nm).1.players.B).isSome ∧
        r.started = false ∧ r.winner = none →
          (Part001.join r sid nm).1.currentTurn = some Slot.A ∧
          (Part001.join r sid nm).1.started = true ∧
          (Part001.join r sid nm).2.2 =
            [Event.assign sid (Part001.join r sid nm).2.1, Event.startGame]) ∧
       (¬(((Part001.join r sid nm).1.players.A).isSome ∧
          ((Part001.join r sid nm).1.players.B).isSome ∧
          r.started = false ∧ r.winner = none) →
          (Part001.join r sid nm).2.2 =
            [Event.assign sid (Part001.join r sid nm).2.1, Event.updateState] ∧
          (Part001.join r sid nm).1.board = r.board ∧
          (Part001.join r sid nm).1.currentTurn = r.currentTurn ∧
          (Part001.join r sid nm).1.started = r.started ∧
          (Part001.join r sid nm).1.winner = r.winner ∧
          (Part001.join r sid nm).1.pendingDecisions = r.pendingDecisions)) ∧
    (∀ (r : Room) (sid nm : Nat),
       (((ServerJs.join r sid nm).1.players.A).isSome ∧
        ((ServerJs.join r sid nm).1.players.B).isSome →
          (ServerJs.join r sid nm).1.currentTurn = some Slot.A ∧
          (ServerJs.join r sid nm).1.started = true ∧
          (ServerJs.join r sid nm).2.2 = [Event.startGame]) ∧
       (¬(((ServerJs.join r sid nm).1.players.A).isSome ∧
          ((ServerJs.join r sid nm).1.players.B).isSome) →
          (ServerJs.join r sid nm).2.2 = [Event.updateState] ∧
          (ServerJs.join r sid nm).1.board = r.board ∧
          (ServerJs.join r sid nm).1.currentTurn = r.currentTurn ∧
          (ServerJs.join r sid nm).1.started = r.started ∧
          (ServerJs.join r sid nm).1.winner = r.winner ∧
          (ServerJs.join r sid nm).1.postDecisions = r.postDecisions)) ∧
    (∀ (r : Room) (sid nm : Nat),
       (((Part000.join r sid nm).1.players.A).isSome ∧
        ((Part000.join r sid nm).1.players.B).isSome →
          (Part000.join r sid nm).2.2 = [Event.startGame] ∧
          (Part000.join r sid nm).1.postDecisions = ⟨none, none⟩ ∧
          (r.started = false ∧ r.winner = none →
            (Part000.join r sid nm).1.currentTurn = some Slot.A ∧
            (Part000.join r sid nm).1.started = true) ∧
          (r.started = true ∨ (r.winner).isSome →
            (Part000.join r sid nm).1.currentTurn = r.currentTurn ∧
            (Part000.join r sid nm).1.started = r.started)) ∧
       (¬(((Part000.join r sid nm).1.players.A).isSome ∧
          ((Part000.join r sid nm).1.players.B).isSome) →
          (Part000.join r sid nm).2.2 = [Event.updateState] ∧
          (Part000.join r sid nm).1.board = r.board ∧
          (Part000.join r sid nm).1.currentTurn = r.currentTurn ∧
          (Part000.join r sid nm).1.started = r.started ∧
          (Part000.join r sid nm).1.winner = r.winner ∧
          (Part000.join r sid nm).1.postDecisions = r.postDecisions)) := by
  refine ⟨?_, ?_, ?_⟩
  · intro r sid nm
    unfold Part001.join
    cases hA : r.players.A <;> cases hB : r.players.B <;>
      cases hs : r.started <;> cases hw : r.winner <;>
      simp [PlayersRec.get, PlayersRec.set, hA, hB, hs, hw]
  · intro r sid nm
    unfold ServerJs.join
    cases hA : r.players.A <;> cases hB : r.players.B <;>
      simp [PlayersRec.get, PlayersRec.set, hA, hB]
  · intro r sid nm
    unfold Part000.join
    cases hA : r.players.A <;> cases hB : r.players.B <;>
      cases hs : r.started <;> cases hw : r.winner <;>
      simp [PlayersRec.get, PlayersRec.set, hA, hB, hs, hw]

/-- C9 amended: `forceEndGame` always ends with a `start_game` broadcast
and never an `update_state`, and always resets the board to the empty 3×3
grid; when the initiator and the other player are both seated, the other
occupant ends up in the initiator's slot with a full hand and the
initiator's id is appended to the back of the queue (of which the final
queue is a suffix, promotion consuming from the front); when the other
slot is empty the initiator's slot is left empty — promotion is attempted
only for the other slot. -/
theorem c9_amended_forceEndGame :
    ∀ (conn : Nat → Bool) (names : Nat → Nat) (r : Room) (ls : Slot),
      ((ServerJs.forceEndGame conn names r ls).2).getLast? =
        some Event.startGame ∧
      (ServerJs.forceEndGame conn names r ls).1.board = emptyBoard ∧
      Event.updateState ∉ (ServerJs.forceEndGame conn names r ls).2 ∧
      (∀ lv ot, r.players.get ls = some lv →
        r.players.get (if ls = Slot.A then Slot.B else Slot.A) = some ot →
        ((ServerJs.forceEndGame conn names r ls).1.players.get ls).map Player.id =
          some ot.id ∧
        ((ServerJs.forceEndGame conn names r ls).1.players.get ls).map Player.pieces =
          some fullHand ∧
        ∃ k, (ServerJs.forceEndGame conn names r ls).1.watchQueue =
          (r.watchQueue ++ [lv.id]).drop k) ∧
      (∀ lv, r.players.get ls = some lv →
        r.players.get (if ls = Slot.A then Slot.B else Slot.A) = none →
        (ServerJs.forceEndGame conn names r ls).1.players.get ls = none ∧
        ∃ k, (ServerJs.forceEndGame conn names r ls).1.watchQueue =
          (r.watchQueue ++ [lv.id]).drop k) := by
  intro conn names r ls
  have hne : ls ≠ (if ls = Slot.A then Slot.B else Slot.A) := by
    cases ls <;> simp
  cases hlv : r.players.get ls with
  | none =>
    cases hot : r.players.get (if ls = Slot.A then Slot.B else Slot.A) with
    | none =>
      have hfe : ServerJs.forceEndGame conn names r ls = (ServerJs.resetBoard (ServerJs.promoteFromQueue conn names r (if ls = Slot.A then Slot.B else Slot.A)).1, (ServerJs.promoteFromQueue conn names r (if ls = Slot.A then Slot.B else Slot.A)).2.2 ++ [Event.startGame]) := by
        unfold ServerJs.forceEndGame
        simp only [hlv, hot]
      obtain ⟨g1, ⟨k, gk⟩, g3⟩ := promoteFromQueue_spec conn names r (if ls = Slot.A then Slot.B else Slot.A)
      rw [hfe]
      refine ⟨by simp [List.getLast?_append_cons], rfl, ?_, ?_, ?_⟩
      · intro h
        rcases List.mem_append.mp h with h1 | h2
        · exact g3 h1
        · simp at h2
      · intro lv ot hl
        exact absurd hl (by simp [hlv])
      · intro lv hl
        exact absurd hl (by simp [hlv])
    | some ot =>
      have hfe : ServerJs.forceEndGame conn names r ls = (ServerJs.resetBoard (ServerJs.promoteFromQueue conn names { r with players := PlayersRec.set (r.players.set ls (some { ot with pieces := fullHand })) (if ls = Slot.A then Slot.B else Slot.A) none } (if ls = Slot.A then Slot.B else Slot.A)).1, (ServerJs.promoteFromQueue conn names { r with players := PlayersRec.set (r.players.set ls (some { ot with pieces := fullHand })) (if ls = Slot.A then Slot.B else Slot.A) none } (if ls = Slot.A then Slot.B else Slot.A)).2.2 ++ [Event.startGame]) := by
        unfold ServerJs.forceEndGame
        simp only [hlv, hot]
      obtain ⟨g1, ⟨k, gk⟩, g3⟩ := promoteFromQueue_spec conn names { r with players := PlayersRec.set (r.players.set ls (some { ot with pieces := fullHand })) (if ls = Slot.A then Slot.B else Slot.A) none } (if ls = Slot.A then Slot.B else Slot.A)
      rw [hfe]
      refine ⟨by simp [List.getLast?_append_cons], rfl, ?_, ?_, ?_⟩
      · intro h
        rcases List.mem_append.mp h with h1 | h2
        · exact g3 h1
        · simp at h2
      · intro lv ot' hl
        exact absurd hl (by simp [hlv])
      · intro lv hl
        exact absurd hl (by simp [hlv])
  | some lv =>
    cases hot : r.players.get (if ls = Slot.A then Slot.B else Slot.A) with
    | none =>
      have hfe : ServerJs.forceEndGame conn names r ls = (ServerJs.resetBoard (ServerJs.promoteFromQueue conn names { r with watchQueue := r.watchQueue ++ [lv.id], players := r.players.set ls none } (if ls = Slot.A then Slot.B else Slot.A)).1, (ServerJs.promoteFromQueue conn names { r with watchQueue := r.watchQueue ++ [lv.id], players := r.players.set ls none } (if ls = Slot.A then Slot.B else Slot.A)).2.2 ++ [Event.startGame]) := by
        unfold ServerJs.forceEndGame
        simp only [hlv, hot]
      obtain ⟨g1, ⟨k, gk⟩, g3⟩ := promoteFromQueue_spec conn names { r with watchQueue := r.watchQueue ++ [lv.id], players := r.players.set ls none } (if ls = Slot.A then Slot.B else Slot.A)
      rw [hfe]
      refine ⟨by simp [List.getLast?_append_cons], rfl, ?_, ?_, ?_⟩
      · intro h
        rcases List.mem_append.mp h with h1 | h2
        · exact g3 h1
        · simp at h2
      · intro lv' ot hl ho
        exact absurd ho (by simp [hot])
      · intro lv' hl ho
        obtain rfl := Option.some.inj hl
        constructor
        · rw [resetBoard_players_get, g1 ls hne]
          simp [playersRec_get_set, hne]
        · refine ⟨k, ?_⟩
          rw [resetBoard_queue, gk]
    | some ot =>
      have hfe : ServerJs.forceEndGame conn names r ls = (ServerJs.resetBoard (ServerJs.promoteFromQueue conn names { r with watchQueue := r.watchQueue ++ [lv.id], players := PlayersRec.set ((r.players.set ls none).set ls (some { ot with pieces := fullHand })) (if ls = Slot.A then Slot.B else Slot.A) none } (if ls = Slot.A then Slot.B else Slot.A)).1, (ServerJs.promoteFromQueue conn names { r with watchQueue := r.watchQueue ++ [lv.id], players := PlayersRec.set ((r.players.set ls none).set ls (some { ot with pieces := fullHand })) (if ls = Slot.A then Slot.B else Slot.A) none } (if ls = Slot.A then Slot.B else Slot.A)).2.2 ++ [Event.startGame]) := by
        unfold ServerJs.forceEndGame
        simp only [hlv, hot]
      obtain ⟨g1, ⟨k, gk⟩, g3⟩ := promoteFromQueue_spec conn names { r with watchQueue := r.watchQueue ++ [lv.id], players := PlayersRec.set ((r.players.set ls none).set ls (some { ot with pieces := fullHand })) (if ls = Slot.A then Slot.B else Slot.A) none } (if ls = Slot.A then Slot.B else Slot.A)
      rw [hfe]
      refine ⟨by simp [List.getLast?_append_cons], rfl, ?_, ?_, ?_⟩
      · intro h
        rcases List.mem_append.mp h with h1 | h2
        · exact g3 h1
        · simp at h2
      · intro lv' ot' hl ho
        obtain rfl := Option.some.inj hl
        obtain rfl := Option.some.inj ho
        refine ⟨?_, ?_, ⟨k, ?_⟩⟩
        · rw [resetBoard_players_get, g1 ls hne]
          simp [playersRec_get_set, hne]
        · rw [resetBoard_players_get, g1 ls hne]
          simp [playersRec_get_set, hne]
        · rw [resetBoard_queue, gk]
      · intro lv' hl ho
        exact absurd ho (by simp [hot])

/-- Witness for C4's dispatch characterisation at concrete inputs. -/
theorem c4_amended_witness :
    Part001.applyChoice connAll stW4 Slot.A = (stW4, []) ∧
    (Part001.applyChoice connAll stW4 Slot.B).1.spectators =
      stW4.spectators ++ [(pB2.id, pB2.name)] ∧
    ServerJs.handleSlot stC4 [] Slot.B =
      ({ stC4 with players := stC4.players.set Slot.B none }, [pB2]) ∧
    ServerJs.handleSlot stC4 [] Slot.A =
      ({ stC4 with players := stC4.players.set Slot.A none,
                   watchQueue := stC4.watchQueue ++ [pA2.id] }, []) :=
  ⟨(c4_amended_dispatch_by_decision.1 connAll stW4 Slot.A pA2 rfl).1 rfl,
   ((c4_amended_dispatch_by_decision.1 connAll stW4 Slot.B pB2 rfl).2.2 rfl).2,
   (c4_amended_dispatch_by_decision.2.2 stC4 [] Slot.B pB2 rfl).1 rfl,
   (c4_amended_dispatch_by_decision.2.2 stC4 [] Slot.A pA2 rfl).2
     Decision.leave rfl (by decide)⟩

/-- Witness for C6's join gating at concrete inputs: a spectator joining
the running part_001 match gets a pure update with the turn untouched,
and a second player joining the waiting server.js room starts the game. -/
theorem c6_amended_witness :
    (Part001.join stC6p1 9 90).2.2 =
      [Event.assign 9 (Part001.join stC6p1 9 90).2.1, Event.updateState] ∧
    (Part001.join stC6p1 9 90).1.currentTurn = stC6p1.currentTurn ∧
    (ServerJs.join stQ5 9 90).2.2 = [Event.startGame] := by
  refine ⟨?_, ?_, ?_⟩
  · exact ((c6_amended_join_gating.1 stC6p1 9 90).2 (by decide)).1
  · exact ((c6_amended_join_gating.1 stC6p1 9 90).2 (by decide)).2.2.1
  · exact ((c6_amended_join_gating.2.1 stQ5 9 90).1 (by decide)).2.2

/-- Witness for C9's force-quit characterisation at a concrete input. -/
theorem c9_amended_witness :
    ((ServerJs.forceEndGame connAll nmId stC9 Slot.A).2).getLast? =
      some Event.startGame ∧
    (ServerJs.forceEndGame connAll nmId stC9 Slot.A).1.board = emptyBoard ∧
    (ServerJs.forceEndGame connAll nmId stC9 Slot.A).1.players.get Slot.A = none ∧
    ∃ k, (ServerJs.forceEndGame connAll nmId stC9 Slot.A).1.watchQueue =
      (stC9.watchQueue ++ [pA2.id]).drop k := by
  refine ⟨(c9_amended_forceEndGame connAll nmId stC9 Slot.A).1,
          (c9_amended_forceEndGame connAll nmId stC9 Slot.A).2.1, ?_, ?_⟩
  · exact ((c9_amended_forceEndGame connAll nmId stC9 Slot.A).2.2.2.2 pA2 rfl
      (by decide)).1
  · exact ((c9_amended_forceEndGame connAll nmId stC9 Slot.A).2.2.2.2 pA2 rfl
      (by decide)).2
